import Mathlib

/-!
Shallow embedding of the ganuBE storage abstraction: the hybrid
Cloudinary/local-disk upload backend (config/cloudinary.js) and the
attachment lifecycle orchestration of the Blog, Event and Career routes.
Definitions mirror the JavaScript source; theorems settle the frozen
claims about it.  JavaScript string primitives (`split`, `includes`,
`startsWith`) are modelled by structurally recursive functions on the
character list of the string, so that every definition evaluates by
kernel reduction.
-/

namespace GanuBE

/-- One splitting pass for `jsSplitChar`: walk the characters, cutting a
new part at every occurrence of the separator `c`; `acc` holds the
current part reversed. -/
def splitOnCharAux (c : Char) : List Char → List Char → List (List Char)
  | [], acc => [acc.reverse]
  | d :: rest, acc =>
    if d == c then acc.reverse :: splitOnCharAux c rest []
    else splitOnCharAux c rest (d :: acc)

/-- JS `s.split(sep)` for a one-character separator `sep = c`: the list of
parts of `s` between occurrences of `c` (empty parts included, and a
final/initial empty part when `s` ends/starts with `c`), never empty. -/
def jsSplitChar (s : String) (c : Char) : List String :=
  (splitOnCharAux c s.toList []).map (fun l => String.mk l)

/-- Substring occurrence test on character lists: `true` iff `t` occurs
contiguously in the list. -/
def listContains (t : List Char) : List Char → Bool
  | [] => t.isEmpty
  | c :: rest => t.isPrefixOf (c :: rest) || listContains t rest

/-- JS `s.includes(t)`: `true` iff `t` occurs in `s` as a substring. -/
def includesSubstr (s t : String) : Bool :=
  listContains t.toList s.toList

/-- JS `s.startsWith(t)`. -/
def startsWithStr (s t : String) : Bool :=
  t.toList.isPrefixOf s.toList

/-- JS `p.substring(0, p.lastIndexOf('.'))` guarded by
`lastIndexOf('.') !== -1`: drops the suffix starting at the last dot, and
returns `p` unchanged when `p` has no dot. -/
def stripLastExtension (p : String) : String :=
  let parts := jsSplitChar p '.'
  if parts.length ≤ 1 then p
  else String.intercalate "." parts.dropLast

/-- JS `a[0]` on the never-empty result of a `split`: the first part. -/
def jsFirst (l : List String) : String :=
  l.headD ""

/-- A Cloudinary `uploader.destroy(publicId, { resource_type })` call. -/
structure DestroyCall where
  publicId : String
  resourceType : String
deriving DecidableEq, Repr

/-- `deleteFromCloudinary` (config/cloudinary.js, lines 201-231), as the
destroy call it issues: `none` when the function returns without calling
the remote service, `some c` when it issues `destroy` with `c`.
Mirrors the source: reject URLs without `cloudinary.com`; strip the query
string (`url.split('?')[0]`); split the clean URL on `/`; return if the
segments hold no `upload` (JS `indexOf === -1`); infer the resource type
from a `/raw/` occurrence; join the segments two past `upload` and strip
the trailing extension. -/
def deleteFromCloudinary (url : String) : Option DestroyCall :=
  if !includesSubstr url "cloudinary.com" then none
  else
    let cleanUrl := jsFirst (jsSplitChar url '?')
    let urlParts := jsSplitChar cleanUrl '/'
    match urlParts.indexOf? "upload" with
    | none => none
    | some uploadIndex =>
      let resourceType := if includesSubstr cleanUrl "/raw/" then "raw" else "image"
      let publicIdWithExt := String.intercalate "/" (urlParts.drop (uploadIndex + 2))
      some ⟨stripLastExtension publicIdWithExt, resourceType⟩

/-! ### Filesystem paths and the two storage backends -/

/-- One step of Node `path.join` normalization over an absolute path,
processing one segment: empty and `.` segments vanish, `..` pops the last
resolved segment (and is dropped at the root), anything else is
appended. -/
def normAux (acc : List String) (seg : String) : List String :=
  if seg = "" || seg = "." then acc
  else if seg = ".." then acc.dropLast
  else acc ++ [seg]

/-- Node `path.join(base..., rel)` for an absolute base directory given as
resolved segments: split `rel` on `/`, append, and normalize. -/
def pathJoin (base : List String) (rel : String) : List String :=
  (base ++ jsSplitChar rel '/').foldl normAux []

/-- The two storage backends: the Cloudinary account, holding assets keyed
by `(public_id, resource_type)`, and the local filesystem, holding files
at resolved absolute paths. -/
structure Backends where
  cloud : List DestroyCall
  disk : List (List String)
deriving DecidableEq, Repr

/-- Effect of `await deleteFromCloudinary(url)` on the backends: when the
parse succeeds the destroyed asset disappears from the Cloudinary account,
otherwise nothing happens (the function returned early or the remote
treats the id as already deleted). -/
def applyDestroy (st : Backends) (url : String) : Backends :=
  match deleteFromCloudinary url with
  | none => st
  | some c => { st with cloud := st.cloud.filter (fun a => decide (a ≠ c)) }

/-- Effect of `fs.unlinkSync(p)` guarded by `fs.existsSync(p)`. -/
def unlinkIfExists (st : Backends) (p : List String) : Backends :=
  if p ∈ st.disk then { st with disk := st.disk.filter (fun q => decide (q ≠ p)) }
  else st

/-- `deleteFile` (config/cloudinary.js, lines 182-198) as a state
transformer on the backends.  `srcRoot` is the resolved application source
directory; the function's `__dirname` is its `config` subdirectory, so the
local branch resolves `path.join(__dirname, '..', url)`.  `none` models a
JS `null`/`undefined` argument and `""` is falsy, both returning at the
`if (!url)` guard. -/
def deleteFile (srcRoot : List String) (st : Backends) (url : Option String) : Backends :=
  match url with
  | none => st
  | some u =>
    if u = "" then st
    else if includesSubstr u "cloudinary.com" then applyDestroy st u
    else if startsWithStr u "/uploads/" then
      unlinkIfExists st (pathJoin (srcRoot ++ ["config", ".."]) u)
    else st

/-! ### Hybrid storage backend selection -/

/-- Where an uploaded file's bytes are stored. -/
inductive StorageTarget where
  | cloudinary
  | localDisk
deriving DecidableEq, Repr

/-- The routing decision of `createHybridStorage`'s `_handleFile`
(config/cloudinary.js, lines 84-127): a file whose MIME type equals
`application/pdf` goes to Cloudinary when `isVercel` holds and to the
local disk storage otherwise; every other file goes to the Cloudinary
image storage.  `isVercel` (line 15) is the deployment flag computed once
from the environment. -/
def hybridStorageBackend (isVercel : Bool) (mimetype : String) : StorageTarget :=
  if mimetype = "application/pdf" then
    if isVercel then .cloudinary else .localDisk
  else .cloudinary

/-! ### Upload middleware pipeline -/

/-- An incoming multipart file as multer presents it to the middleware. -/
structure UploadFile where
  mimetype : String
  originalname : String
  size : Nat
deriving DecidableEq, Repr

/-- The `fileFilter` of `createUploadMiddleware` (config/cloudinary.js,
lines 143-149): accept MIME types starting with `image/` or equal to
`application/pdf`. -/
def fileFilterAccepts (mimetype : String) : Bool :=
  startsWithStr mimetype "image/" || mimetype = "application/pdf"

/-- The errors the upload middleware can hand to `handleMulterError`:
multer's own coded errors, or a plain error such as the one thrown by the
fileFilter. -/
inductive MulterError where
  | limitFileSize
  | limitUnexpectedFile
  | other (message : String)
deriving DecidableEq, Repr

/-- An HTTP error response. -/
structure ErrorResponse where
  status : Nat
  message : String
deriving DecidableEq, Repr

/-- `handleMulterError` (config/cloudinary.js, lines 161-179): map the
middleware error to the HTTP response it sends. -/
def handleMulterError : MulterError → ErrorResponse
  | .limitFileSize => ⟨400, "File too large. Maximum size is 20MB."⟩
  | .limitUnexpectedFile => ⟨400, "Unexpected field or too many files."⟩
  | .other message => ⟨400, message⟩

/-- Third-party multer semantics for `upload.single('file')` as configured
by `createUploadMiddleware` (config/cloudinary.js, lines 140-158): when a
file begins, the configured fileFilter runs first and a rejected type
aborts the request with the filter's error; otherwise the bytes stream to
the selected storage and exceeding `limits.fileSize = maxSize * 1024 *
1024` aborts with multer's `LIMIT_FILE_SIZE` error, the storage engine
undoing any partial write.  Only a fully stored file reaches the route
handler. -/
def multerSingle (maxSize : Nat) (f : UploadFile) : Except MulterError UploadFile :=
  if !fileFilterAccepts f.mimetype then
    .error (.other "Only image and PDF files are allowed!")
  else if f.size > maxSize * 1024 * 1024 then
    .error .limitFileSize
  else .ok f

/-- Outcome of one upload request through the middleware chain. -/
structure PipelineResult where
  response : Option ErrorResponse
  persisted : Bool
  backendWrites : Nat
deriving DecidableEq, Repr

/-- An upload route mounted as `upload.single('file'), handleMulterError,
handler`: a middleware error short-circuits into `handleMulterError`'s
response, so the handler — and with it any database persistence and the
completed backend write — never happens; an accepted file reaches the
handler, which stores one object and persists one document. -/
def uploadPipeline (maxSize : Nat) (f : UploadFile) : PipelineResult :=
  match multerSingle maxSize f with
  | .error e => { response := some (handleMulterError e), persisted := false, backendWrites := 0 }
  | .ok _ => { response := none, persisted := true, backendWrites := 1 }

/-! ### Entity records and the file branches of the route handlers -/

/-- `req.file` as the route handlers see it after a successful upload. -/
structure ReqFile where
  mimetype : String
  path : String
  filename : String
  originalname : String
  size : Nat
deriving DecidableEq, Repr

/-- `formatFileSize` (config/cloudinary.js, lines 234-240) renders a byte
count with floating-point arithmetic (`Math.log`, `toFixed`); no claim
inspects the rendered text, only whether a record carries one, so the
rendering is abstracted to the decimal byte count. -/
def formatFileSize (bytes : Nat) : String :=
  toString bytes

/-- What a Mongo `$set`-style update does to one document field: leave it
alone, set it to `null`, or set a value.  The handlers build `updateData`
objects whose present fields are applied by `findByIdAndUpdate`. -/
inductive FieldUpd (α : Type) where
  | keep
  | setNull
  | set (a : α)
deriving DecidableEq, Repr

/-- Apply a field update to the stored field value. -/
def FieldUpd.apply {α : Type} : FieldUpd α → Option α → Option α
  | .keep, v => v
  | .setNull, _ => none
  | .set a, _ => some a

/-- The attachment-related fields of a Career document (models/Career.js);
other fields play no part in the claims. -/
structure CareerRec where
  imageUrl : Option String
  pdfUrl : Option String
  pdfFileName : Option String
  fileSize : Option String
  fileType : Option String
deriving DecidableEq, Repr

/-- The attachment-related part of a career `updateData` object. -/
structure CareerUpdate where
  imageUrl : FieldUpd String := .keep
  pdfUrl : FieldUpd String := .keep
  pdfFileName : FieldUpd String := .keep
  fileSize : FieldUpd String := .keep
  fileType : FieldUpd String := .keep
deriving DecidableEq, Repr

/-- `Career.findByIdAndUpdate(id, updateData)` on the attachment fields. -/
def CareerUpdate.apply (u : CareerUpdate) (r : CareerRec) : CareerRec where
  imageUrl := u.imageUrl.apply r.imageUrl
  pdfUrl := u.pdfUrl.apply r.pdfUrl
  pdfFileName := u.pdfFileName.apply r.pdfFileName
  fileSize := u.fileSize.apply r.fileSize
  fileType := u.fileType.apply r.fileType

/-- The file branch of the career update handler (src/unnamed/part_000,
lines 118-152): a PDF sets `pdfUrl` to the uploaded `req.file.path`
together with name, size and type, and clears `imageUrl`; any other file
sets `imageUrl` and clears `pdfUrl`, `pdfFileName` and `fileSize`.  (The
same assignments build `careerData` on create, lines 70-82, without the
explicit clears.) -/
def careerFileUpdateData (f : ReqFile) : CareerUpdate :=
  if f.mimetype = "application/pdf" then
    { pdfUrl := .set f.path
      pdfFileName := .set f.originalname
      fileSize := .set (formatFileSize f.size)
      fileType := .set "pdf"
      imageUrl := .setNull }
  else
    { imageUrl := .set f.path
      fileType := .set "image"
      pdfUrl := .setNull
      pdfFileName := .setNull
      fileSize := .setNull }

/-- The attachment-related fields of an Event document (models/Event.js). -/
structure EventRec where
  imageUrl : Option String
  pdfUrl : Option String
  pdfFileName : Option String
  fileSize : Option String
  fileType : Option String
deriving DecidableEq, Repr

/-- The attachment-related part of an event `updateData` object. -/
structure EventUpdate where
  imageUrl : FieldUpd String := .keep
  pdfUrl : FieldUpd String := .keep
  pdfFileName : FieldUpd String := .keep
  fileSize : FieldUpd String := .keep
  fileType : FieldUpd String := .keep
deriving DecidableEq, Repr

/-- `Event.findByIdAndUpdate(id, updateData)` on the attachment fields. -/
def EventUpdate.apply (u : EventUpdate) (r : EventRec) : EventRec where
  imageUrl := u.imageUrl.apply r.imageUrl
  pdfUrl := u.pdfUrl.apply r.pdfUrl
  pdfFileName := u.pdfFileName.apply r.pdfFileName
  fileSize := u.fileSize.apply r.fileSize
  fileType := u.fileType.apply r.fileType

/-- The file branch of the event update handler (src/unnamed/part_002,
lines 206-253): events store locally, so both kinds set their URL to
`/uploads/events/<filename>` and clear the other kind's fields. -/
def eventFileUpdateData (f : ReqFile) : EventUpdate :=
  if f.mimetype = "application/pdf" then
    { pdfUrl := .set ("/uploads/events/" ++ f.filename)
      pdfFileName := .set f.originalname
      fileSize := .set (formatFileSize f.size)
      fileType := .set "pdf"
      imageUrl := .setNull }
  else
    { imageUrl := .set ("/uploads/events/" ++ f.filename)
      fileType := .set "image"
      pdfUrl := .setNull
      pdfFileName := .setNull
      fileSize := .setNull }

/-- The attachment- and content-related fields of a Blog document
(models/Blog.js, lines 5-12).  `isPdfPost` defaults to `false` in the
schema; `none` models an absent/null stored value. -/
structure BlogRec where
  content : Option String
  imageUrl : Option String
  pdfUrl : Option String
  pdfFileName : Option String
  fileSize : Option String
  isPdfPost : Option Bool
  fileType : Option String
deriving DecidableEq, Repr

/-- The relevant part of a blog `updateData` object. -/
structure BlogUpdate where
  content : FieldUpd String := .keep
  imageUrl : FieldUpd String := .keep
  pdfUrl : FieldUpd String := .keep
  pdfFileName : FieldUpd String := .keep
  fileSize : FieldUpd String := .keep
  isPdfPost : FieldUpd Bool := .keep
  fileType : FieldUpd String := .keep
deriving DecidableEq, Repr

/-- `Blog.findByIdAndUpdate(id, updateData)` on the modelled fields. -/
def BlogUpdate.apply (u : BlogUpdate) (r : BlogRec) : BlogRec where
  content := u.content.apply r.content
  imageUrl := u.imageUrl.apply r.imageUrl
  pdfUrl := u.pdfUrl.apply r.pdfUrl
  pdfFileName := u.pdfFileName.apply r.pdfFileName
  fileSize := u.fileSize.apply r.fileSize
  isPdfPost := u.isPdfPost.apply r.isPdfPost
  fileType := u.fileType.apply r.fileType

/-- The stored `pdfUrl` for an uploaded blog PDF (src/unnamed/part_004,
lines 863-869 and 947-951): the Cloudinary URL itself when the hybrid
storage returned one, else the served local path
`/uploads/blogs/<filename>`. -/
def blogStoredPdfUrl (f : ReqFile) : String :=
  if includesSubstr f.path "cloudinary.com" then f.path
  else "/uploads/blogs/" ++ f.filename

/-- The file branch of the hybrid blog update handler
(src/unnamed/part_004, lines 933-976).  `bodyContent` is whatever update
`req.body` carried for `content` (spread into `updateData` before the
branch): the PDF branch overwrites it with the empty string, the image
branch leaves it as it is. -/
def blogFileUpdateData (bodyContent : FieldUpd String) (f : ReqFile) : BlogUpdate :=
  if f.mimetype = "application/pdf" then
    { pdfUrl := .set (blogStoredPdfUrl f)
      pdfFileName := .set f.originalname
      fileSize := .set (formatFileSize f.size)
      fileType := .set "pdf"
      isPdfPost := .set true
      content := .set ""
      imageUrl := .setNull }
  else
    { imageUrl := .set f.path
      fileType := .set "image"
      isPdfPost := .set false
      pdfUrl := .setNull
      pdfFileName := .setNull
      fileSize := .setNull
      content := bodyContent }

/-- The file branch of the hybrid blog create handler
(src/unnamed/part_004, lines 853-896): `blogData` starts as the request
body and the branch overwrites the attachment fields the same way the
update branch does, the PDF branch clearing `content`. -/
def blogFileCreateData (body : BlogRec) (f : ReqFile) : BlogRec :=
  if f.mimetype = "application/pdf" then
    { body with
      pdfUrl := some (blogStoredPdfUrl f)
      pdfFileName := some f.originalname
      fileSize := some (formatFileSize f.size)
      fileType := some "pdf"
      isPdfPost := some true
      content := some ""
      imageUrl := none }
  else
    { body with
      imageUrl := some f.path
      fileType := some "image"
      isPdfPost := some false
      pdfUrl := none
      pdfFileName := none
      fileSize := none }

/-! ### Cleanup-on-failure (catch blocks of the create handlers) -/

/-- The catch block of the career create handler (src/unnamed/part_000,
lines 97-106), run when `career.save()` threw after a successful upload:
`if (req.file && req.file.path) await deleteFromCloudinary(req.file.path)`
before the 400 response. -/
def careerCreateCleanup (st : Backends) (f : Option ReqFile) : Backends :=
  match f with
  | none => st
  | some f => if f.path ≠ "" then applyDestroy st f.path else st

/-- The catch block of the hybrid blog create handler
(src/unnamed/part_004, lines 898-921), run when `blog.save()` threw after
a successful upload, before the 400 response: a PDF whose path is a
Cloudinary URL goes through `deleteFile`; a locally stored PDF is
unlinked at `path.join(__dirname, '../uploads/blogs', req.file.filename)`
(the route file lives in `<srcRoot>/routes`); an image goes through
`deleteFile`. -/
def blogCreateCleanup (srcRoot : List String) (st : Backends) (f : Option ReqFile) : Backends :=
  match f with
  | none => st
  | some f =>
    if f.mimetype = "application/pdf" then
      if includesSubstr f.path "cloudinary.com" then deleteFile srcRoot st (some f.path)
      else unlinkIfExists st (pathJoin (srcRoot ++ ["routes", "..", "uploads", "blogs"]) f.filename)
    else deleteFile srcRoot st (some f.path)

/-- The catch block of the event create handler (src/unnamed/part_002,
lines 167-179): unlink `path.join(__dirname, '../uploads/events',
req.file.filename)` if it exists. -/
def eventCreateCleanup (srcRoot : List String) (st : Backends) (f : Option ReqFile) : Backends :=
  match f with
  | none => st
  | some f => unlinkIfExists st (pathJoin (srcRoot ++ ["routes", "..", "uploads", "events"]) f.filename)

/-! ### Entity deletion handlers -/

/-- One side-effecting step of a delete or update handler, in program
order.  `unlinkRel u` is the event handlers' inline unlink of
`path.join(__dirname, '..', u)` guarded by `existsSync`; `dbRemove` and
`dbPersist` are the database calls. -/
inductive HandlerStep where
  | destroyUrl (url : String)
  | delFileUrl (url : String)
  | unlinkRel (url : String)
  | dbRemove
  | dbPersist
deriving DecidableEq, Repr

/-- Is the step one of the attachment-deletion steps? -/
def HandlerStep.isDeletion : HandlerStep → Bool
  | .destroyUrl _ => true
  | .delFileUrl _ => true
  | .unlinkRel _ => true
  | _ => false

/-- Backend effect of one handler step (`db*` steps touch only the
database, not the backends). -/
def HandlerStep.effect (srcRoot : List String) (st : Backends) : HandlerStep → Backends
  | .destroyUrl u => applyDestroy st u
  | .delFileUrl u => deleteFile srcRoot st (some u)
  | .unlinkRel u => unlinkIfExists st (pathJoin (srcRoot ++ ["routes", ".."]) u)
  | .dbRemove => st
  | .dbPersist => st

/-- Run a handler's steps over the backends. -/
def runSteps (srcRoot : List String) (st : Backends) (l : List HandlerStep) : Backends :=
  l.foldl (fun s a => HandlerStep.effect srcRoot s a) st

/-- The career delete handler (src/unnamed/part_000, lines 186-206):
`deleteFromCloudinary` on each non-null stored URL, then
`Career.findByIdAndDelete`. -/
def careerDeleteSteps (r : CareerRec) : List HandlerStep :=
  (match r.imageUrl with | some u => [.destroyUrl u] | none => []) ++
  (match r.pdfUrl with | some u => [.destroyUrl u] | none => []) ++ [.dbRemove]

/-- The hybrid blog delete handler (src/unnamed/part_004, lines
1019-1039): `deleteFile` on each non-null stored URL, then
`Blog.findByIdAndDelete`. -/
def blogDeleteSteps (r : BlogRec) : List HandlerStep :=
  (match r.imageUrl with | some u => [.delFileUrl u] | none => []) ++
  (match r.pdfUrl with | some u => [.delFileUrl u] | none => []) ++ [.dbRemove]

/-! ### Update handlers as step traces (old-attachment replacement) -/

/-- The side-effecting steps of the event update handler's file branch
(src/unnamed/part_002, lines 206-259), in program order: the PDF branch
unlinks the old PDF and the old image unconditionally; the image branch
unlinks the old image only when it starts with `/uploads/` and the old
PDF unconditionally; `Event.findByIdAndUpdate` runs last. -/
def eventUpdateSteps (old : EventRec) (f : ReqFile) : List HandlerStep :=
  (if f.mimetype = "application/pdf" then
    (match old.pdfUrl with | some u => [.unlinkRel u] | none => []) ++
    (match old.imageUrl with | some u => [.unlinkRel u] | none => [])
  else
    (match old.imageUrl with
      | some u => if startsWithStr u "/uploads/" then [.unlinkRel u] else []
      | none => []) ++
    (match old.pdfUrl with | some u => [.unlinkRel u] | none => [])) ++ [.dbPersist]

/-- The side-effecting steps of the career update handler's file branch
(src/unnamed/part_000, lines 118-170): `deleteFromCloudinary` on the old
URLs (PDF branch: old pdf then old image; image branch: old image then
old pdf), then `Career.findByIdAndUpdate`. -/
def careerUpdateSteps (old : CareerRec) (f : ReqFile) : List HandlerStep :=
  (if f.mimetype = "application/pdf" then
    (match old.pdfUrl with | some u => [.destroyUrl u] | none => []) ++
    (match old.imageUrl with | some u => [.destroyUrl u] | none => [])
  else
    (match old.imageUrl with | some u => [.destroyUrl u] | none => []) ++
    (match old.pdfUrl with | some u => [.destroyUrl u] | none => [])) ++ [.dbPersist]

/-- Combined system state for the event update trace: the local disk and
the database's current Event document. -/
structure EventSys where
  disk : List (List String)
  record : EventRec
deriving DecidableEq, Repr

/-- One step of the event update handler on the combined state: unlinks
change the disk, `dbPersist` applies the `updateData` to the stored
document. -/
def eventStepSys (srcRoot : List String) (f : ReqFile) (st : EventSys) : HandlerStep → EventSys
  | .unlinkRel u =>
    let p := pathJoin (srcRoot ++ ["routes", ".."]) u
    if p ∈ st.disk then { st with disk := st.disk.filter (fun q => decide (q ≠ p)) } else st
  | .dbPersist => { st with record := (eventFileUpdateData f).apply st.record }
  | _ => st

/-- All intermediate states of the event update handler, starting from
`init`: what a concurrent database read could observe at each suspension
point. -/
def eventUpdateTrace (srcRoot : List String) (init : EventSys) (f : ReqFile) : List EventSys :=
  (eventUpdateSteps init.record f).scanl (eventStepSys srcRoot f) init

/-- Does the state show a dangling local reference: the stored document
still references `u` under `/uploads/` while `u`'s backing file is gone
from the disk, and the updated document is not yet visible? -/
def eventDangling (srcRoot : List String) (final : EventRec) (st : EventSys) : Bool :=
  decide (st.record ≠ final) &&
  ((match st.record.pdfUrl with
    | some u => startsWithStr u "/uploads/" &&
        decide (pathJoin (srcRoot ++ ["routes", ".."]) u ∉ st.disk)
    | none => false) ||
   (match st.record.imageUrl with
    | some u => startsWithStr u "/uploads/" &&
        decide (pathJoin (srcRoot ++ ["routes", ".."]) u ∉ st.disk)
    | none => false))

/-! ### Shared helper predicates -/

/-- Exactly one of the two attachment references is non-null. -/
def exclusiveAttachment (img pdf : Option String) : Prop :=
  (img.isSome = true ∧ pdf = none) ∨ (pdf.isSome = true ∧ img = none)

/-- Is `p` inside the subtree rooted at `root`? -/
def underRoot (root p : List String) : Bool :=
  root.isPrefixOf p

end GanuBE

namespace GanuBE

/-! ### Claim theorems -/

/-- C1: the hybrid storage selector is a pure function of the deployment
flag and the file's MIME type: a non-PDF file is always stored in
Cloudinary, and a PDF is stored in Cloudinary exactly when `isVercel`
holds, on local disk otherwise. -/
theorem hybrid_backend_selection (v : Bool) (m : String) :
    (m ≠ "application/pdf" → hybridStorageBackend v m = .cloudinary) ∧
    (m = "application/pdf" →
      ((hybridStorageBackend v m = .cloudinary ↔ v = true) ∧
       (hybridStorageBackend v m = .localDisk ↔ v = false))) := by
  constructor
  · intro h
    simp [hybridStorageBackend, h]
  · intro h
    subst h
    cases v <;> simp [hybridStorageBackend]

/-- Witness for C1 at a concrete image and a concrete PDF. -/
theorem hybrid_backend_selection_witness :
    hybridStorageBackend false "image/png" = StorageTarget.cloudinary ∧
    (hybridStorageBackend false "application/pdf" = StorageTarget.localDisk ↔ false = false) :=
  ⟨(hybrid_backend_selection false "image/png").1 (by decide),
   ((hybrid_backend_selection false "application/pdf").2 rfl).2⟩

/-- C2: after an update with a new file completes, the persisted Career,
Event or Blog record has exactly one of `imageUrl`/`pdfUrl` non-null: a
PDF sets `pdfUrl` and explicitly nulls `imageUrl`; any other file sets
`imageUrl` and explicitly nulls `pdfUrl`, `pdfFileName` and `fileSize`. -/
theorem update_exactly_one_attachment (oc : CareerRec) (oe : EventRec) (ob : BlogRec)
    (bc : FieldUpd String) (f : ReqFile) :
    exclusiveAttachment ((careerFileUpdateData f).apply oc).imageUrl
      ((careerFileUpdateData f).apply oc).pdfUrl ∧
    exclusiveAttachment ((eventFileUpdateData f).apply oe).imageUrl
      ((eventFileUpdateData f).apply oe).pdfUrl ∧
    exclusiveAttachment ((blogFileUpdateData bc f).apply ob).imageUrl
      ((blogFileUpdateData bc f).apply ob).pdfUrl ∧
    (f.mimetype = "application/pdf" →
      ((careerFileUpdateData f).apply oc).pdfUrl = some f.path ∧
      ((careerFileUpdateData f).apply oc).imageUrl = none ∧
      ((blogFileUpdateData bc f).apply ob).pdfUrl = some (blogStoredPdfUrl f) ∧
      ((blogFileUpdateData bc f).apply ob).imageUrl = none) ∧
    (f.mimetype ≠ "application/pdf" →
      ((careerFileUpdateData f).apply oc).imageUrl = some f.path ∧
      ((careerFileUpdateData f).apply oc).pdfUrl = none ∧
      ((careerFileUpdateData f).apply oc).pdfFileName = none ∧
      ((careerFileUpdateData f).apply oc).fileSize = none ∧
      ((blogFileUpdateData bc f).apply ob).imageUrl = some f.path ∧
      ((blogFileUpdateData bc f).apply ob).pdfUrl = none ∧
      ((blogFileUpdateData bc f).apply ob).pdfFileName = none ∧
      ((blogFileUpdateData bc f).apply ob).fileSize = none) := by
  by_cases h : f.mimetype = "application/pdf" <;>
    simp [careerFileUpdateData, eventFileUpdateData, blogFileUpdateData,
      CareerUpdate.apply, EventUpdate.apply, BlogUpdate.apply, FieldUpd.apply,
      exclusiveAttachment, h]

/-- Witness for C2: replacing an old image by a PDF on a concrete career
record leaves only `pdfUrl` set. -/
theorem update_exactly_one_attachment_witness :
    ((careerFileUpdateData ⟨"application/pdf", "u", "fn", "orig", 5⟩).apply
        ⟨some "oldimg", none, none, none, none⟩).pdfUrl = some "u" ∧
    ((careerFileUpdateData ⟨"application/pdf", "u", "fn", "orig", 5⟩).apply
        ⟨some "oldimg", none, none, none, none⟩).imageUrl = none := by
  have h := update_exactly_one_attachment ⟨some "oldimg", none, none, none, none⟩
    ⟨none, none, none, none, none⟩ ⟨none, none, none, none, none, none, none⟩
    FieldUpd.keep ⟨"application/pdf", "u", "fn", "orig", 5⟩
  exact ⟨(h.2.2.2.1 rfl).1, (h.2.2.2.1 rfl).2.1⟩

/-- C9: on blog create and update, a PDF upload sets `content` to the
empty string and `isPdfPost` to `true`; an image upload sets `isPdfPost`
to `false` and leaves `content` exactly as the request body dictated. -/
theorem blog_pdf_clears_content (body old : BlogRec) (bc : FieldUpd String) (f : ReqFile) :
    (f.mimetype = "application/pdf" →
      (blogFileCreateData body f).content = some "" ∧
      (blogFileCreateData body f).isPdfPost = some true ∧
      ((blogFileUpdateData bc f).apply old).content = some "" ∧
      ((blogFileUpdateData bc f).apply old).isPdfPost = some true) ∧
    (f.mimetype ≠ "application/pdf" →
      (blogFileCreateData body f).isPdfPost = some false ∧
      (blogFileCreateData body f).content = body.content ∧
      ((blogFileUpdateData bc f).apply old).isPdfPost = some false ∧
      (blogFileUpdateData bc f).content = bc) := by
  by_cases h : f.mimetype = "application/pdf" <;>
    simp [blogFileCreateData, blogFileUpdateData, BlogUpdate.apply, FieldUpd.apply, h]

/-- Witness for C9 at a concrete PDF upload over a blog with text. -/
theorem blog_pdf_clears_content_witness :
    (blogFileCreateData ⟨some "old text", none, none, none, none, none, none⟩
        ⟨"application/pdf", "u", "fn", "orig", 5⟩).content = some "" ∧
    (blogFileCreateData ⟨some "old text", none, none, none, none, none, none⟩
        ⟨"application/pdf", "u", "fn", "orig", 5⟩).isPdfPost = some true := by
  have h := blog_pdf_clears_content ⟨some "old text", none, none, none, none, none, none⟩
    ⟨none, none, none, none, none, none, none⟩ FieldUpd.keep
    ⟨"application/pdf", "u", "fn", "orig", 5⟩
  exact ⟨(h.1 rfl).1, (h.1 rfl).2.1⟩

/-- C10: `deleteFile` on a null, undefined or empty reference, or on a
non-empty reference that neither contains `cloudinary.com` nor starts
with `/uploads/`, leaves both backends exactly as they were. -/
theorem deleteFile_foreign_noop (srcRoot : List String) (st : Backends) (u : String)
    (h1 : u ≠ "") (h2 : includesSubstr u "cloudinary.com" = false)
    (h3 : startsWithStr u "/uploads/" = false) :
    deleteFile srcRoot st none = st ∧
    deleteFile srcRoot st (some "") = st ∧
    deleteFile srcRoot st (some u) = st := by
  refine ⟨rfl, by simp [deleteFile], ?_⟩
  simp [deleteFile, h1, h2, h3]

/-- Witness for C10 at a concrete non-Cloudinary absolute URL. -/
theorem deleteFile_foreign_noop_witness :
    deleteFile ["app"] ⟨[⟨"pid", "image"⟩], [["app", "x.txt"]]⟩
      (some "https://example.com/pic.png") = ⟨[⟨"pid", "image"⟩], [["app", "x.txt"]]⟩ :=
  (deleteFile_foreign_noop ["app"] ⟨[⟨"pid", "image"⟩], [["app", "x.txt"]]⟩
    "https://example.com/pic.png" (by decide) (by decide) (by decide)).2.2

/-- C6: for every URL containing `cloudinary.com`, after stripping the
query string, `deleteFromCloudinary` issues no destroy when the path
segments contain no `upload` segment; otherwise it destroys the public id
formed by joining the segments two past the first `upload` with `/` and
dropping the trailing extension, with resource type `raw` exactly when
the cleaned URL contains `/raw/` and `image` otherwise. -/
theorem deleteFromCloudinary_parse (url : String)
    (hc : includesSubstr url "cloudinary.com" = true) :
    ("upload" ∉ jsSplitChar (jsFirst (jsSplitChar url '?')) '/' →
      deleteFromCloudinary url = none) ∧
    (∀ i, (jsSplitChar (jsFirst (jsSplitChar url '?')) '/').indexOf? "upload" = some i →
      deleteFromCloudinary url =
        some ⟨stripLastExtension (String.intercalate "/"
                ((jsSplitChar (jsFirst (jsSplitChar url '?')) '/').drop (i + 2))),
              if includesSubstr (jsFirst (jsSplitChar url '?')) "/raw/" then "raw"
              else "image"⟩) := by
  constructor
  · intro h
    have hn : (jsSplitChar (jsFirst (jsSplitChar url '?')) '/').indexOf? "upload" = none := by
      rw [List.indexOf?_eq_none_iff]
      intro x hx hbeq
      exact h (by rwa [show x = "upload" from by simpa using hbeq] at hx)
    simp [deleteFromCloudinary, hc, hn]
  · intro i hi
    simp [deleteFromCloudinary, hc, hi]

/-- Witness for C6: a raw PDF URL with a query string parses to the
stored public id with resource type `raw`. -/
theorem deleteFromCloudinary_parse_witness :
    deleteFromCloudinary
      "https://res.cloudinary.com/demo/raw/upload/v1712/ganu/careers/report_1700.pdf.pdf?fl_attachment=false"
      = some ⟨"ganu/careers/report_1700.pdf", "raw"⟩ := by
  have h := (deleteFromCloudinary_parse
    "https://res.cloudinary.com/demo/raw/upload/v1712/ganu/careers/report_1700.pdf.pdf?fl_attachment=false"
    (by decide)).2 5 (by decide)
  exact h.trans (by decide)

/-- C7 counterexample: a 30MB `text/plain` upload exceeds the 20MB
ceiling, yet the request fails with the type-violation message, not the
size-specific one the claim promises for every oversize upload — the
fileFilter fires before the stream hits the size limit. -/
theorem oversize_rejected_type_message :
    (30 * 1024 * 1024 : Nat) > 20 * 1024 * 1024 ∧
    uploadPipeline 20 ⟨"text/plain", "big.txt", 30 * 1024 * 1024⟩ =
      ⟨some ⟨400, "Only image and PDF files are allowed!"⟩, false, 0⟩ ∧
    (uploadPipeline 20 ⟨"text/plain", "big.txt", 30 * 1024 * 1024⟩).response ≠
      some ⟨400, "File too large. Maximum size is 20MB."⟩ := by
  refine ⟨by norm_num, by decide, by decide⟩

/-- C7 amended: an oversize upload of an accepted type (image or PDF)
fails with HTTP 400 and the size-specific message; an oversize upload of
a rejected type fails with HTTP 400 and the distinct type-violation
message; in both cases no entity document is persisted and no backend
write occurs. -/
theorem oversize_upload_rejected (maxSize : Nat) (f : UploadFile)
    (hsize : f.size > maxSize * 1024 * 1024) :
    (fileFilterAccepts f.mimetype = true →
      uploadPipeline maxSize f =
        ⟨some ⟨400, "File too large. Maximum size is 20MB."⟩, false, 0⟩) ∧
    (fileFilterAccepts f.mimetype = false →
      uploadPipeline maxSize f =
        ⟨some ⟨400, "Only image and PDF files are allowed!"⟩, false, 0⟩) ∧
    (uploadPipeline maxSize f).persisted = false ∧
    (uploadPipeline maxSize f).backendWrites = 0 ∧
    ("File too large. Maximum size is 20MB." : String) ≠
      "Only image and PDF files are allowed!" := by
  by_cases hf : fileFilterAccepts f.mimetype <;>
    simp [uploadPipeline, multerSingle, handleMulterError, hf, hsize]

/-- Witness for the amended C7 at a concrete 21MB PDF. -/
theorem oversize_upload_rejected_witness :
    uploadPipeline 20 ⟨"application/pdf", "big.pdf", 21 * 1024 * 1024⟩ =
      ⟨some ⟨400, "File too large. Maximum size is 20MB."⟩, false, 0⟩ :=
  (oversize_upload_rejected 20 ⟨"application/pdf", "big.pdf", 21 * 1024 * 1024⟩
    (by norm_num)).1 (by decide)

/-- C4 counterexample: in the event update handler, replacing a stored
PDF deletes the old file from disk before `findByIdAndUpdate` runs, so
the trace contains a state where the database still shows the old
`pdfUrl` while its backing file is already gone and the new document is
not yet visible — exactly the observation the claim rules out. -/
theorem event_update_dangling_window :
    (eventUpdateTrace ["app"]
        ⟨[["app", "uploads", "events", "event-1.pdf"]],
         ⟨none, some "/uploads/events/event-1.pdf", some "old.pdf", some "100", some "pdf"⟩⟩
        ⟨"application/pdf", "p", "event-2.pdf", "new.pdf", 200⟩).any
      (eventDangling ["app"]
        ((eventFileUpdateData ⟨"application/pdf", "p", "event-2.pdf", "new.pdf", 200⟩).apply
          ⟨none, some "/uploads/events/event-1.pdf", some "old.pdf", some "100", some "pdf"⟩))
      = true := by decide

/-- C4 amended: in the career and event update handlers the database
persist is the final step, coming after every deletion of the old
attachment; consequently (see the counterexample) a database read between
the old-attachment deletion and the persist — or after a failed persist —
can observe a stored reference whose backing file is already deleted
while the new state is not yet visible. -/
theorem update_deletes_old_before_persist (oc : CareerRec) (oe : EventRec) (f : ReqFile) :
    (∃ pre, careerUpdateSteps oc f = pre ++ [HandlerStep.dbPersist] ∧
      ∀ s ∈ pre, s.isDeletion = true) ∧
    (∃ pre, eventUpdateSteps oe f = pre ++ [HandlerStep.dbPersist] ∧
      ∀ s ∈ pre, s.isDeletion = true) := by
  constructor
  · refine ⟨_, rfl, ?_⟩
    intro s hs
    by_cases h : f.mimetype = "application/pdf" <;>
      rcases hi : oc.imageUrl with _ | u <;> rcases hp : oc.pdfUrl with _ | v <;>
        simp_all [HandlerStep.isDeletion] <;> rcases hs with rfl | rfl <;> rfl
  · refine ⟨_, rfl, ?_⟩
    intro s hs
    by_cases h : f.mimetype = "application/pdf" <;>
      rcases hi : oe.imageUrl with _ | u <;> rcases hp : oe.pdfUrl with _ | v <;>
        by_cases hu : startsWithStr (oe.imageUrl.getD "") "/uploads/" <;>
          simp_all [HandlerStep.isDeletion] <;> rcases hs with rfl | rfl <;> rfl

/-- Witness for the amended C4: a concrete PDF-over-PDF event update has
its persist as the final step after the old-file deletions. -/
theorem update_deletes_old_before_persist_witness :
    ∃ pre, eventUpdateSteps ⟨none, some "/uploads/events/event-1.pdf", none, none, none⟩
        ⟨"application/pdf", "p", "event-2.pdf", "new.pdf", 200⟩
        = pre ++ [HandlerStep.dbPersist] ∧
      ∀ s ∈ pre, s.isDeletion = true :=
  (update_deletes_old_before_persist ⟨none, none, none, none, none⟩
    ⟨none, some "/uploads/events/event-1.pdf", none, none, none⟩
    ⟨"application/pdf", "p", "event-2.pdf", "new.pdf", 200⟩).2

/-! ### Effect lemmas: handler steps only remove objects -/

/-- A parse failure means no URL without `cloudinary.com` ever reaches the
destroy call. -/
theorem deleteFromCloudinary_none_of_not_includes {u : String}
    (h : includesSubstr u "cloudinary.com" = false) : deleteFromCloudinary u = none := by
  unfold deleteFromCloudinary
  rw [h]
  rfl

/-- A successful parse forces the `cloudinary.com` marker. -/
theorem includes_of_parse_some {u : String} {c : DestroyCall}
    (h : deleteFromCloudinary u = some c) : includesSubstr u "cloudinary.com" = true := by
  cases hinc : includesSubstr u "cloudinary.com" with
  | true => rfl
  | false =>
    rw [deleteFromCloudinary_none_of_not_includes hinc] at h
    exact absurd h (by simp)

/-- The destroyed asset is gone from the Cloudinary account. -/
theorem applyDestroy_removes {st : Backends} {u : String} {c : DestroyCall}
    (h : deleteFromCloudinary u = some c) : c ∉ (applyDestroy st u).cloud := by
  unfold applyDestroy
  rw [h]
  intro hmem
  have := List.of_mem_filter hmem
  simp at this

/-- `applyDestroy` never adds a Cloudinary asset. -/
theorem notMem_cloud_applyDestroy {st : Backends} {x : DestroyCall}
    (h : x ∉ st.cloud) (u : String) : x ∉ (applyDestroy st u).cloud := by
  unfold applyDestroy
  cases deleteFromCloudinary u with
  | none => exact h
  | some c =>
    intro hmem
    exact h (List.mem_of_mem_filter hmem)

/-- `applyDestroy` leaves the disk alone. -/
theorem disk_applyDestroy (st : Backends) (u : String) :
    (applyDestroy st u).disk = st.disk := by
  unfold applyDestroy
  cases deleteFromCloudinary u <;> rfl

/-- `unlinkIfExists` leaves the Cloudinary account alone. -/
theorem cloud_unlinkIfExists (st : Backends) (p : List String) :
    (unlinkIfExists st p).cloud = st.cloud := by
  unfold unlinkIfExists
  split <;> rfl

/-- The unlinked path is gone from the disk afterwards. -/
theorem unlinkIfExists_removes (st : Backends) (p : List String) :
    p ∉ (unlinkIfExists st p).disk := by
  unfold unlinkIfExists
  by_cases h : p ∈ st.disk
  · rw [if_pos h]
    intro hmem
    have := List.of_mem_filter hmem
    simp at this
  · rw [if_neg h]
    exact h

/-- Unfolding `deleteFile` on a present reference. -/
theorem deleteFile_some (sr : List String) (st : Backends) (u : String) :
    deleteFile sr st (some u) =
      if u = "" then st
      else if includesSubstr u "cloudinary.com" then applyDestroy st u
      else if startsWithStr u "/uploads/" then
        unlinkIfExists st (pathJoin (sr ++ ["config", ".."]) u)
      else st := rfl

/-- `unlinkIfExists` never adds a disk file. -/
theorem notMem_disk_unlinkIfExists {st : Backends} {x : List String}
    (h : x ∉ st.disk) (p : List String) : x ∉ (unlinkIfExists st p).disk := by
  unfold unlinkIfExists
  split
  · intro hmem
    exact h (List.mem_of_mem_filter hmem)
  · exact h

/-- `deleteFile` never adds a Cloudinary asset. -/
theorem notMem_cloud_deleteFile {st : Backends} {x : DestroyCall}
    (h : x ∉ st.cloud) (sr : List String) (u : Option String) :
    x ∉ (deleteFile sr st u).cloud := by
  cases u with
  | none => exact h
  | some s =>
    rw [deleteFile_some]
    split_ifs with h1 h2 h3
    · exact h
    · exact notMem_cloud_applyDestroy h s
    · rw [cloud_unlinkIfExists]
      exact h
    · exact h

/-- `deleteFile` never adds a disk file. -/
theorem notMem_disk_deleteFile {st : Backends} {x : List String}
    (h : x ∉ st.disk) (sr : List String) (u : Option String) :
    x ∉ (deleteFile sr st u).disk := by
  cases u with
  | none => exact h
  | some s =>
    rw [deleteFile_some]
    split_ifs with h1 h2 h3
    · exact h
    · rw [disk_applyDestroy]
      exact h
    · exact notMem_disk_unlinkIfExists h _
    · exact h

/-- `deleteFile` on a non-empty Cloudinary URL destroys the parsed
asset. -/
theorem deleteFile_removes_cloud {sr : List String} {st : Backends} {u : String}
    {c : DestroyCall} (hne : u ≠ "") (h : deleteFromCloudinary u = some c) :
    c ∉ (deleteFile sr st (some u)).cloud := by
  have hinc := includes_of_parse_some h
  rw [deleteFile_some, if_neg hne, if_pos hinc]
  exact applyDestroy_removes h

/-- `deleteFile` on a non-empty local `/uploads/` reference unlinks the
resolved path. -/
theorem deleteFile_removes_disk {sr : List String} {st : Backends} {u : String}
    (hne : u ≠ "") (hni : includesSubstr u "cloudinary.com" = false)
    (hsw : startsWithStr u "/uploads/" = true) :
    pathJoin (sr ++ ["config", ".."]) u ∉ (deleteFile sr st (some u)).disk := by
  rw [deleteFile_some, if_neg hne, if_neg (by simp [hni]), if_pos hsw]
  exact unlinkIfExists_removes st _

/-- A handler step never adds a Cloudinary asset. -/
theorem notMem_cloud_effect {sr : List String} {st : Backends} {x : DestroyCall}
    (h : x ∉ st.cloud) (a : HandlerStep) : x ∉ (HandlerStep.effect sr st a).cloud := by
  cases a with
  | destroyUrl u => exact notMem_cloud_applyDestroy h u
  | delFileUrl u => exact notMem_cloud_deleteFile h sr (some u)
  | unlinkRel u =>
    show x ∉ (unlinkIfExists st _).cloud
    rw [cloud_unlinkIfExists]
    exact h
  | dbRemove => exact h
  | dbPersist => exact h

/-- A handler step never adds a disk file. -/
theorem notMem_disk_effect {sr : List String} {st : Backends} {x : List String}
    (h : x ∉ st.disk) (a : HandlerStep) : x ∉ (HandlerStep.effect sr st a).disk := by
  cases a with
  | destroyUrl u =>
    show x ∉ (applyDestroy st u).disk
    rw [disk_applyDestroy]
    exact h
  | delFileUrl u => exact notMem_disk_deleteFile h sr (some u)
  | unlinkRel u => exact notMem_disk_unlinkIfExists h _
  | dbRemove => exact h
  | dbPersist => exact h

/-- Running handler steps never adds a Cloudinary asset. -/
theorem notMem_cloud_runSteps {sr : List String} {x : DestroyCall} :
    ∀ (l : List HandlerStep) (st : Backends), x ∉ st.cloud → x ∉ (runSteps sr st l).cloud := by
  intro l
  induction l with
  | nil => exact fun st h => h
  | cons a t ih => exact fun st h => ih _ (notMem_cloud_effect h a)

/-- Running handler steps never adds a disk file. -/
theorem notMem_disk_runSteps {sr : List String} {x : List String} :
    ∀ (l : List HandlerStep) (st : Backends), x ∉ st.disk → x ∉ (runSteps sr st l).disk := by
  intro l
  induction l with
  | nil => exact fun st h => h
  | cons a t ih => exact fun st h => ih _ (notMem_disk_effect h a)

/-- Splitting a run of handler steps. -/
theorem run_append (sr : List String) (st : Backends) (l1 l2 : List HandlerStep) :
    runSteps sr st (l1 ++ l2) = runSteps sr (runSteps sr st l1) l2 :=
  List.foldl_append _ _ _ _

/-- Unfolding the career create catch block on a present file. -/
theorem careerCreateCleanup_some (st : Backends) (f : ReqFile) :
    careerCreateCleanup st (some f) =
      if f.path ≠ "" then applyDestroy st f.path else st := rfl

/-- Unfolding the blog create catch block on a present file. -/
theorem blogCreateCleanup_some (sr : List String) (st : Backends) (f : ReqFile) :
    blogCreateCleanup sr st (some f) =
      if f.mimetype = "application/pdf" then
        if includesSubstr f.path "cloudinary.com" then deleteFile sr st (some f.path)
        else unlinkIfExists st (pathJoin (sr ++ ["routes", "..", "uploads", "blogs"]) f.filename)
      else deleteFile sr st (some f.path) := rfl

/-- Unfolding the event create catch block on a present file. -/
theorem eventCreateCleanup_some (sr : List String) (st : Backends) (f : ReqFile) :
    eventCreateCleanup sr st (some f) =
      unlinkIfExists st (pathJoin (sr ++ ["routes", "..", "uploads", "events"]) f.filename) := rfl

/-- C3: when database persistence throws after a successful upload, the
create handlers' catch blocks delete the just-uploaded object from its
backend before responding: the career handler destroys the Cloudinary
asset parsed from `req.file.path`; the blog handler destroys the
Cloudinary asset for remote files and unlinks the local file for locally
stored PDFs; the event handler unlinks the local file.  The final two
conjuncts check that the URL shapes the storage engines hand back —
a Cloudinary image `secure_url` and a raw PDF URL with the appended
`.pdf?fl_attachment=false` suffix — parse back to exactly the uploaded
asset's public id and resource type. -/
theorem create_failure_cleanup_removes_upload (srcRoot : List String) (st : Backends)
    (f : ReqFile) :
    (∀ c, f.path ≠ "" → deleteFromCloudinary f.path = some c →
      c ∉ (careerCreateCleanup st (some f)).cloud) ∧
    (f.mimetype = "application/pdf" → f.path ≠ "" →
      ∀ c, deleteFromCloudinary f.path = some c →
      c ∉ (blogCreateCleanup srcRoot st (some f)).cloud) ∧
    (f.mimetype = "application/pdf" → includesSubstr f.path "cloudinary.com" = false →
      pathJoin (srcRoot ++ ["routes", "..", "uploads", "blogs"]) f.filename ∉
        (blogCreateCleanup srcRoot st (some f)).disk) ∧
    (f.mimetype ≠ "application/pdf" → f.path ≠ "" →
      ∀ c, deleteFromCloudinary f.path = some c →
      c ∉ (blogCreateCleanup srcRoot st (some f)).cloud) ∧
    (pathJoin (srcRoot ++ ["routes", "..", "uploads", "events"]) f.filename ∉
      (eventCreateCleanup srcRoot st (some f)).disk) ∧
    deleteFromCloudinary
      "https://res.cloudinary.com/demo/image/upload/v1712/ganu/careers/abc123.jpg"
      = some ⟨"ganu/careers/abc123", "image"⟩ ∧
    deleteFromCloudinary
      "https://res.cloudinary.com/demo/raw/upload/v1712/ganu/blogs/report_1700.pdf.pdf?fl_attachment=false"
      = some ⟨"ganu/blogs/report_1700.pdf", "raw"⟩ := by
  refine ⟨?_, ?_, ?_, ?_, ?_, by decide, by decide⟩
  · intro c hne hp
    rw [careerCreateCleanup_some, if_pos hne]
    exact applyDestroy_removes hp
  · intro hm hne c hp
    have hinc := includes_of_parse_some hp
    rw [blogCreateCleanup_some, if_pos hm, if_pos hinc]
    exact deleteFile_removes_cloud hne hp
  · intro hm hni
    rw [blogCreateCleanup_some, if_pos hm, if_neg (by simp [hni])]
    exact unlinkIfExists_removes st _
  · intro hm hne c hp
    rw [blogCreateCleanup_some, if_neg hm]
    exact deleteFile_removes_cloud hne hp
  · rw [eventCreateCleanup_some]
    exact unlinkIfExists_removes st _

/-- Witness for C3: the career catch block destroys a concretely uploaded
Cloudinary image, leaving the account without it. -/
theorem create_failure_cleanup_removes_upload_witness :
    (⟨"ganu/careers/abc123", "image"⟩ : DestroyCall) ∉
      (careerCreateCleanup ⟨[⟨"ganu/careers/abc123", "image"⟩], []⟩
        (some ⟨"image/jpeg",
          "https://res.cloudinary.com/demo/image/upload/v1712/ganu/careers/abc123.jpg",
          "abc123.jpg", "me.jpg", 5⟩)).cloud := by
  have h := create_failure_cleanup_removes_upload ["app"]
    ⟨[⟨"ganu/careers/abc123", "image"⟩], []⟩
    ⟨"image/jpeg",
      "https://res.cloudinary.com/demo/image/upload/v1712/ganu/careers/abc123.jpg",
      "abc123.jpg", "me.jpg", 5⟩
  exact h.1 ⟨"ganu/careers/abc123", "image"⟩ (by decide) (by decide)

/-- C5: the delete handlers invoke the backend delete for each non-null
stored URL before the database record is removed — the career handler a
Cloudinary destroy, the blog handler the backend-dispatching `deleteFile`
— and running the handler leaves the referenced Cloudinary asset
(respectively the referenced local file) absent from its backend. -/
theorem delete_removes_current_attachments (srcRoot : List String) (st : Backends)
    (rc : CareerRec) (rb : BlogRec) :
    (∃ pre, careerDeleteSteps rc = pre ++ [HandlerStep.dbRemove] ∧
      (∀ u, rc.imageUrl = some u → HandlerStep.destroyUrl u ∈ pre) ∧
      (∀ u, rc.pdfUrl = some u → HandlerStep.destroyUrl u ∈ pre)) ∧
    (∃ pre, blogDeleteSteps rb = pre ++ [HandlerStep.dbRemove] ∧
      (∀ u, rb.imageUrl = some u → HandlerStep.delFileUrl u ∈ pre) ∧
      (∀ u, rb.pdfUrl = some u → HandlerStep.delFileUrl u ∈ pre)) ∧
    (∀ u c, rc.pdfUrl = some u → deleteFromCloudinary u = some c →
      c ∉ (runSteps srcRoot st (careerDeleteSteps rc)).cloud) ∧
    (∀ u c, rc.imageUrl = some u → deleteFromCloudinary u = some c →
      c ∉ (runSteps srcRoot st (careerDeleteSteps rc)).cloud) ∧
    (∀ u c, rb.pdfUrl = some u → u ≠ "" → deleteFromCloudinary u = some c →
      c ∉ (runSteps srcRoot st (blogDeleteSteps rb)).cloud) ∧
    (∀ u c, rb.imageUrl = some u → u ≠ "" → deleteFromCloudinary u = some c →
      c ∉ (runSteps srcRoot st (blogDeleteSteps rb)).cloud) ∧
    (∀ u, rb.pdfUrl = some u → u ≠ "" → includesSubstr u "cloudinary.com" = false →
      startsWithStr u "/uploads/" = true →
      pathJoin (srcRoot ++ ["config", ".."]) u ∉
        (runSteps srcRoot st (blogDeleteSteps rb)).disk) := by
  refine ⟨?_, ?_, ?_, ?_, ?_, ?_, ?_⟩
  · refine ⟨(match rc.imageUrl with | some u => [HandlerStep.destroyUrl u] | none => []) ++
      (match rc.pdfUrl with | some u => [HandlerStep.destroyUrl u] | none => []), rfl, ?_, ?_⟩
    · intro u h
      rw [h]
      simp
    · intro u h
      rw [h]
      simp
  · refine ⟨(match rb.imageUrl with | some u => [HandlerStep.delFileUrl u] | none => []) ++
      (match rb.pdfUrl with | some u => [HandlerStep.delFileUrl u] | none => []), rfl, ?_, ?_⟩
    · intro u h
      rw [h]
      simp
    · intro u h
      rw [h]
      simp
  · intro u c h1 h2
    unfold careerDeleteSteps
    rw [h1, run_append, run_append]
    exact notMem_cloud_runSteps _ _ (applyDestroy_removes h2)
  · intro u c h1 h2
    unfold careerDeleteSteps
    rw [h1, run_append, run_append]
    exact notMem_cloud_runSteps _ _ (notMem_cloud_runSteps _ _ (applyDestroy_removes h2))
  · intro u c h1 hne h2
    unfold blogDeleteSteps
    rw [h1, run_append, run_append]
    exact notMem_cloud_runSteps _ _ (deleteFile_removes_cloud hne h2)
  · intro u c h1 hne h2
    unfold blogDeleteSteps
    rw [h1, run_append, run_append]
    exact notMem_cloud_runSteps _ _ (notMem_cloud_runSteps _ _ (deleteFile_removes_cloud hne h2))
  · intro u h1 hne hni hsw
    unfold blogDeleteSteps
    rw [h1, run_append, run_append]
    exact notMem_disk_runSteps _ _ (deleteFile_removes_disk hne hni hsw)

/-- Witness for C5: deleting a career whose record stores a concrete
Cloudinary image leaves the account without that asset. -/
theorem delete_removes_current_attachments_witness :
    (⟨"ganu/careers/abc123", "image"⟩ : DestroyCall) ∉
      (runSteps ["app"] ⟨[⟨"ganu/careers/abc123", "image"⟩], []⟩
        (careerDeleteSteps
          ⟨some "https://res.cloudinary.com/demo/image/upload/v1712/ganu/careers/abc123.jpg",
           none, none, none, none⟩)).cloud := by
  have h := delete_removes_current_attachments ["app"]
    ⟨[⟨"ganu/careers/abc123", "image"⟩], []⟩
    ⟨some "https://res.cloudinary.com/demo/image/upload/v1712/ganu/careers/abc123.jpg",
     none, none, none, none⟩
    ⟨none, none, none, none, none, none, none⟩
  exact h.2.2.2.1 _ ⟨"ganu/careers/abc123", "image"⟩ rfl (by decide)

/-! ### Path traversal analysis for `deleteFile` -/

/-- Boolean list prefix gives a decomposition. -/
theorem exists_of_isPrefixOf {α : Type} [BEq α] [LawfulBEq α] :
    ∀ {pre l : List α}, pre.isPrefixOf l = true → ∃ t, l = pre ++ t := by
  intro pre
  induction pre with
  | nil => exact fun {l} _ => ⟨l, rfl⟩
  | cons a pr ih =>
    intro l h
    cases l with
    | nil => simp [List.isPrefixOf] at h
    | cons b t =>
      simp only [List.isPrefixOf, Bool.and_eq_true, beq_iff_eq] at h
      obtain ⟨t', rfl⟩ := ih h.2
      exact ⟨t', by simp [h.1]⟩

/-- Normalizing a path whose segments are all plain names appends them. -/
theorem foldl_normAux_clean :
    ∀ (l : List String) (acc : List String),
      (∀ s ∈ l, s ≠ "" ∧ s ≠ "." ∧ s ≠ "..") → l.foldl normAux acc = acc ++ l := by
  intro l
  induction l with
  | nil => intro acc _; simp
  | cons a t ih =>
    intro acc h
    have ha := h a (by simp)
    rw [List.foldl_cons,
      show normAux acc a = acc ++ [a] by simp [normAux, ha.1, ha.2.1, ha.2.2],
      ih (acc ++ [a]) (fun s hs => h s (by simp [hs]))]
    simp

/-- Without `..` segments, normalization can only extend the prefix
already resolved. -/
theorem foldl_normAux_extends :
    ∀ (l : List String) (acc : List String), (∀ s ∈ l, s ≠ "..") →
      ∃ t, l.foldl normAux acc = acc ++ t := by
  intro l
  induction l with
  | nil => exact fun acc _ => ⟨[], by simp⟩
  | cons a t ih =>
    intro acc h
    have ha := h a (by simp)
    have hrec := fun acc' => ih acc' (fun s hs => h s (by simp [hs]))
    rw [List.foldl_cons]
    by_cases h1 : a = "" ∨ a = "."
    · rw [show normAux acc a = acc by
        rcases h1 with h1 | h1 <;> simp [normAux, h1]]
      exact hrec acc
    · push_neg at h1
      rw [show normAux acc a = acc ++ [a] by simp [normAux, h1.1, h1.2, ha]]
      obtain ⟨t', ht⟩ := hrec (acc ++ [a])
      exact ⟨[a] ++ t', by rw [ht, List.append_assoc]⟩

/-- A list is a prefix of itself followed by anything. -/
theorem underRoot_append (root t : List String) : underRoot root (root ++ t) = true := by
  unfold underRoot
  induction root with
  | nil => simp [List.isPrefixOf]
  | cons a r ih =>
    simp only [List.cons_append, List.isPrefixOf, beq_self_eq_true, Bool.true_and]
    exact ih

/-- A reference that starts with `/uploads/` splits on `/` into an empty
part, `uploads`, and the remainder. -/
theorem jsSplitChar_uploads (u : String) (h : startsWithStr u "/uploads/" = true) :
    ∃ rest, jsSplitChar u '/' = "" :: "uploads" :: rest := by
  obtain ⟨t, ht⟩ := exists_of_isPrefixOf h
  refine ⟨(splitOnCharAux '/' t []).map (fun l => String.mk l), ?_⟩
  unfold jsSplitChar
  rw [ht, show ("/uploads/".toList) = ['/', 'u', 'p', 'l', 'o', 'a', 'd', 's', '/'] from by decide]
  simp [splitOnCharAux]

/-- C8 counterexample: the traversal reference `/uploads/../config/secret.js`
passes the `/uploads/` prefix check, and `deleteFile` removes the resolved
file `<srcRoot>/config/secret.js`, which does not lie under the uploads
root — refuting the claim that the removed file always lies within it. -/
theorem deleteFile_escapes_uploads_root :
    ["app", "src", "config", "secret.js"] ∈
      (Backends.mk [] [["app", "src", "config", "secret.js"]]).disk ∧
    startsWithStr "/uploads/../config/secret.js" "/uploads/" = true ∧
    (deleteFile ["app", "src"] ⟨[], [["app", "src", "config", "secret.js"]]⟩
      (some "/uploads/../config/secret.js")).disk = [] ∧
    underRoot ["app", "src", "uploads"] ["app", "src", "config", "secret.js"] = false := by
  decide

/-- C8 amended: `deleteFile` on a local reference is a no-op when the
resolved path does not exist; it attempts deletion only when the
reference starts with `/uploads/` (so a plain absolute path such as
`/etc/passwd` is never followed); and whenever the reference contains no
`..` segment, any file it removes lies within the designated uploads
root.  A `..` traversal inside the `/uploads/` prefix can still escape
the root (see the counterexample). -/
theorem deleteFile_local_guards (srcRoot : List String) (st : Backends) (u : String)
    (hroot : ∀ s ∈ srcRoot, s ≠ "" ∧ s ≠ "." ∧ s ≠ "..")
    (hnc : includesSubstr u "cloudinary.com" = false) :
    (startsWithStr u "/uploads/" = true →
      pathJoin (srcRoot ++ ["config", ".."]) u ∉ st.disk →
      deleteFile srcRoot st (some u) = st) ∧
    (u ≠ "" → startsWithStr u "/uploads/" = false → deleteFile srcRoot st (some u) = st) ∧
    (startsWithStr u "/uploads/" = true → ".." ∉ jsSplitChar u '/' →
      ∀ p ∈ st.disk, p ∉ (deleteFile srcRoot st (some u)).disk →
        underRoot (srcRoot ++ ["uploads"]) p = true) := by
  have hne_of_sw : startsWithStr u "/uploads/" = true → u ≠ "" := by
    intro hsw he
    rw [he] at hsw
    exact absurd hsw (by decide)
  refine ⟨?_, ?_, ?_⟩
  · intro hsw hmem
    rw [deleteFile_some, if_neg (hne_of_sw hsw), if_neg (by simp [hnc]), if_pos hsw]
    unfold unlinkIfExists
    rw [if_neg hmem]
  · intro hne hsw
    rw [deleteFile_some, if_neg hne, if_neg (by simp [hnc]), if_neg (by simp [hsw])]
  · intro hsw hdots p hp hnp
    rw [deleteFile_some, if_neg (hne_of_sw hsw), if_neg (by simp [hnc]), if_pos hsw] at hnp
    unfold unlinkIfExists at hnp
    by_cases hq : pathJoin (srcRoot ++ ["config", ".."]) u ∈ st.disk
    · rw [if_pos hq] at hnp
      have hpq : p = pathJoin (srcRoot ++ ["config", ".."]) u := by
        by_contra hne2
        exact hnp (List.mem_filter.mpr ⟨hp, by simpa using hne2⟩)
      subst hpq
      obtain ⟨rest, hsplit⟩ := jsSplitChar_uploads u hsw
      have hdots' : ∀ s ∈ rest, s ≠ ".." := by
        intro s hs he
        subst he
        exact hdots (by rw [hsplit]; simp [hs])
      unfold pathJoin
      rw [hsplit]
      have key : ((srcRoot ++ ["config", ".."]) ++ ("" :: "uploads" :: rest)).foldl normAux []
          = List.foldl normAux (srcRoot ++ ["uploads"]) rest := by
        rw [List.foldl_append, List.foldl_append,
          foldl_normAux_clean srcRoot [] hroot]
        simp only [List.nil_append, List.foldl_cons, List.foldl_nil]
        rw [show normAux srcRoot "config" = srcRoot ++ ["config"] from by simp [normAux],
          show normAux (srcRoot ++ ["config"]) ".." = srcRoot from by
            simp [normAux],
          show normAux srcRoot "" = srcRoot from by simp [normAux],
          show normAux srcRoot "uploads" = srcRoot ++ ["uploads"] from by simp [normAux]]
      obtain ⟨t, ht⟩ := foldl_normAux_extends rest (srcRoot ++ ["uploads"]) hdots'
      rw [key, ht]
      exact underRoot_append _ _
    · rw [if_neg hq] at hnp
      exact absurd hp hnp

/-- Witness for the amended C8: a normal stored blog PDF reference
resolves under the uploads root, and the removed file is inside it. -/
theorem deleteFile_local_guards_witness :
    underRoot ["app", "src", "uploads"] ["app", "src", "uploads", "blogs", "blog-1.pdf"] = true := by
  have h := deleteFile_local_guards ["app", "src"]
    ⟨[], [["app", "src", "uploads", "blogs", "blog-1.pdf"]]⟩ "/uploads/blogs/blog-1.pdf"
    (by decide) (by decide)
  exact h.2.2 (by decide) (by decide) ["app", "src", "uploads", "blogs", "blog-1.pdf"]
    (by decide) (by decide)

end GanuBE
